import Mathlib

/-!
Verification development for the RadioWall server.

The definitions below are a shallow embedding of the Python sources:
`server/radio_garden.py` (place cache, nearest-station selection, stream
resolution), `server/coordinates.py` (pixel-to-geography projection) and
`server/upnp_streamer.py` (UPnP playback control and DIDL metadata).
Network effects are made explicit: each fallible remote call is a parameter
of type `Option _` (`none` models a raised transport error), randomness is a
parameter constrained only as the Python library constrains it, and
wall-clock times are rationals passed explicitly.
-/

namespace RadioWall

/-- A channel entry's `page` dict: `{"url": ..., "title": ...}`
(`radio_garden.py`, `find_nearest_stations`). -/
structure Page where
  url : String
  title : String
deriving Repr, DecidableEq

/-- One item of a place's channel listing (`items` in `find_nearest_stations`). -/
structure Channel where
  page : Page
deriving Repr, DecidableEq

/-- A place dict from the Radio.garden catalog. Optional fields model
Python's `dict.get` with a default: `title`, `country` and `size` may be
absent. The `geo` pair is not kept because every claim quantifies over the
already distance-sorted list. -/
structure Place where
  id : String
  title : Option String
  country : Option String
  size : Option Int
deriving Repr, DecidableEq

/-- `place.get("size", 1)` in the selection loop of `find_nearest_stations`. -/
def placeSize (p : Place) : Int :=
  p.size.getD 1

/-- The mutable cache fields of `RadioGardenClient`:
`_places` and `_places_fetched_at`. -/
structure CacheState where
  places : List Place
  fetchedAt : ℚ
deriving Repr, DecidableEq

/-- Observable outcome of one `_refresh_places_if_needed` call: the state it
leaves behind, how many network requests it issued, and whether it raised. -/
structure RefreshOutcome where
  state : CacheState
  networkCalls : Nat
  raised : Bool
deriving Repr, DecidableEq

/-- `RadioGardenClient._refresh_places_if_needed`, with `time.time()` passed
as `now` and the remote `GET {base}/places` outcome passed as `fetch`
(`none` models a raised request error / non-2xx `raise_for_status`,
`some ps` the parsed `data.list`). The Python body has no try/except: a
failed fetch raises out of the method, leaving both fields untouched. -/
def refresh_places_if_needed (ttl now : ℚ) (st : CacheState)
    (fetch : Option (List Place)) : RefreshOutcome :=
  if st.places ≠ [] ∧ now - st.fetchedAt < ttl then
    ⟨st, 0, false⟩
  else
    match fetch with
    | none => ⟨st, 1, true⟩
    | some ps => ⟨⟨ps, now⟩, 1, false⟩

/-- The place-selection loop of `find_nearest_stations`
(`for place in places_with_dist: if total_size >= self.n_stations: break; ...`),
with the running total made explicit. `budget` is `self.n_stations` and the
list argument is `places_with_dist` already sorted by distance. Every loop
iteration builds a fresh dict via `{**place, "_dist": dist}`, so the
`place is selected_places[-1]` identity test used later is positional. -/
def selectGo (budget : Int) (total : Int) : List Place → List Place
  | [] => []
  | p :: rest =>
    if budget ≤ total then []
    else p :: selectGo budget (total + placeSize p) rest

/-- The selected working set: the loop starting with `total_size = 0`. -/
def selectPlaces (budget : Int) (ps : List Place) : List Place :=
  selectGo budget 0 ps

/-- Sum of the declared `size` weights of a list of places. -/
def sumSizes (ps : List Place) : Int :=
  (ps.map placeSize).sum

/-- The channel-aggregation loop of `find_nearest_stations`. Each entry of
the outcome list is one place's `GET .../channels` result: `none` when the
request, `raise_for_status` or JSON indexing raised (the `except` branch
logs and continues), `some items` for the parsed item list. `sample` models
`random.sample`: the Python call raises `ValueError` when the requested
count is negative — that exception is swallowed by the same `except`, so the
branch contributes nothing. The last-place test compares against the final
list element, as `place is selected_places[-1]` does. -/
def aggregateChannels (budget : Int)
    (sample : List Channel → Nat → List Channel) :
    List (Option (List Channel)) → List Channel → List Channel
  | [], acc => acc
  | [o], acc =>
    match o with
    | none => acc
    | some items =>
      let remaining : Int := budget - acc.length
      if (items.length : Int) > remaining then
        if remaining < 0 then acc
        else acc ++ sample items remaining.toNat
      else acc ++ items
  | o :: o2 :: rest, acc =>
    match o with
    | none => aggregateChannels budget sample (o2 :: rest) acc
    | some items => aggregateChannels budget sample (o2 :: rest) (acc ++ items)

/-- The channels contributed by a run of fetch outcomes when every place is
treated as a non-last place: successful fetches are concatenated in order. -/
def fetchedConcat : List (Option (List Channel)) → List Channel
  | [] => []
  | o :: os => o.getD [] ++ fetchedConcat os

/-- A non-error response to the `HEAD {base}/listen/{id}/channel.mp3` probe
in `get_stream_url`: its status code, its optional `Location` header, and
`resp.url` (the final URL of the non-redirected request). -/
structure ProbeResp where
  status : Nat
  location : Option String
  finalUrl : String
deriving Repr, DecidableEq

/-- The canonical per-station endpoint
`f"{self.base_url}/listen/{station_id}/channel.mp3"` probed by
`get_stream_url`. -/
def canonical_listen_url (base station_id : String) : String :=
  base ++ "/listen/" ++ station_id ++ "/channel.mp3"

/-- `RadioGardenClient.get_stream_url`. `probe url` is the outcome of the
HEAD request to `url`: `none` models any raised transport/TLS error (the
`except` branch returns the canonical URL). -/
def get_stream_url (base station_id : String)
    (probe : String → Option ProbeResp) : String :=
  let url := canonical_listen_url base station_id
  match probe url with
  | none => url
  | some resp =>
    if resp.status = 301 ∨ resp.status = 302 ∨ resp.status = 307 ∨
        resp.status = 308 then
      resp.location.getD url
    else resp.finalUrl

/-- Python's `str.split(sep)` for a one-character separator, on character
lists: `"a/b".split("/") = ["a","b"]`, `"".split("/") = [""]`,
`"/a".split("/") = ["", "a"]`. -/
def splitOnChar (c : Char) : List Char → List (List Char)
  | [] => [[]]
  | d :: ds =>
    let r := splitOnChar c ds
    if d = c then [] :: r
    else
      match r with
      | [] => [[d]]
      | s :: ss => (d :: s) :: ss

/-- `page["url"].split("/")[-1]` from `find_nearest_stations`: the last
`/`-separated component of the page URL. -/
def lastPathComponent (s : String) : String :=
  ((splitOnChar '/' s.toList).getLastD []).asString

/-- The two `RuntimeError`s `find_nearest_stations` can raise, kept distinct
by their messages: "No radio places found ..." and "No channels found ...". -/
inductive RGError where
  | noPlaces
  | noChannels
deriving Repr, DecidableEq

/-- The result dict of `find_nearest_stations`. -/
structure RGResult where
  station_name : String
  station_id : String
  location : String
  country : String
  stream_url : String
deriving Repr, DecidableEq

/-- `RadioGardenClient.find_nearest_stations` after the refresh and the
distance sort: `sortedPlaces` is `places_with_dist` in ascending distance
order, `fetch` gives each selected place's channel-listing outcome,
`sample` models `random.sample`, `choose` models the selection-mode dispatch
(`nearest`/`popular` take `channels[0]`, `random` takes `random.choice`),
and `probe` feeds `get_stream_url`. -/
def find_nearest_stations (budget : Int) (sortedPlaces : List Place)
    (fetch : Place → Option (List Channel))
    (sample : List Channel → Nat → List Channel)
    (choose : List Channel → Channel)
    (base : String) (probe : String → Option ProbeResp) :
    Except RGError RGResult :=
  match selectPlaces budget sortedPlaces with
  | [] => Except.error RGError.noPlaces
  | p :: rest =>
    let selected := p :: rest
    let channels := aggregateChannels budget sample (selected.map fetch) []
    if channels = [] then Except.error RGError.noChannels
    else
      let channel := choose channels
      let station_id := lastPathComponent channel.page.url
      Except.ok
        { station_name := channel.page.title
          station_id := station_id
          location := p.title.getD "Unknown"
          country := p.country.getD "Unknown"
          stream_url := get_stream_url base station_id probe }

/-- The configuration fields of `CoordinateConverter` (`coordinates.py`).
Rationals stand in for Python floats; every comparison the claims need is
order-theoretic and exact on the configured integer defaults. -/
structure CoordinateConverter where
  touch_min_x : ℚ
  touch_max_x : ℚ
  touch_min_y : ℚ
  touch_max_y : ℚ
  map_north : ℚ
  map_south : ℚ
  map_west : ℚ
  map_east : ℚ
deriving Repr, DecidableEq

/-- The default configuration of `CoordinateConverter.__init__`. -/
def defaultConverter : CoordinateConverter :=
  ⟨0, 1024, 0, 600, 90, -90, -180, 180⟩

/-- `CoordinateConverter.pixel_to_latlon`: normalize, clamp to [0,1] on both
axes, then map linearly to the configured geographic rectangle. -/
def pixel_to_latlon (cfg : CoordinateConverter) (x y : Int) : ℚ × ℚ :=
  let touch_width := cfg.touch_max_x - cfg.touch_min_x
  let touch_height := cfg.touch_max_y - cfg.touch_min_y
  let norm_x := ((x : ℚ) - cfg.touch_min_x) / touch_width
  let norm_y := ((y : ℚ) - cfg.touch_min_y) / touch_height
  let norm_x := max 0 (min 1 norm_x)
  let norm_y := max 0 (min 1 norm_y)
  let longitude := cfg.map_west + norm_x * (cfg.map_east - cfg.map_west)
  let latitude := cfg.map_north - norm_y * (cfg.map_north - cfg.map_south)
  (latitude, longitude)

/-- Python's single-character `str.replace(old, new)` on a character list:
each occurrence of `c` becomes `rep`, scanning left to right without
rescanning replaced text. -/
def replaceChar (c : Char) (rep : List Char) : List Char → List Char
  | [] => []
  | d :: ds => (if d = c then rep else [d]) ++ replaceChar c rep ds

/-- `title.replace("&", "&amp;").replace("<", "&lt;")` from
`UpnpStreamer.play` (`upnp_streamer.py`, the `safe_title` binding). -/
def safe_title (t : List Char) : List Char :=
  replaceChar '<' ("&lt;".toList) (replaceChar '&' ("&amp;".toList) t)

/-- `stream_url.replace("&", "&amp;")` from `UpnpStreamer.play`
(the `safe_url` binding): only the ampersand is replaced. -/
def safe_url (u : List Char) : List Char :=
  replaceChar '&' ("&amp;".toList) u

/-- The escaping the spec ascribes to both embedded values: `&` and `<`
escaped. Modelled from the spec sentence "embedding title and media URL
with & / < escaped"; coincides with `safe_title` and is the yardstick the
URL value is compared against. -/
def specEscapedValue (s : List Char) : List Char :=
  replaceChar '<' ("&lt;".toList) (replaceChar '&' ("&amp;".toList) s)

/-- `DIDL_TEMPLATE` up to the `{title}` placeholder. -/
def didlPre : List Char :=
  ("<DIDL-Lite xmlns=\"urn:schemas-upnp-org:metadata-1-0/DIDL-Lite/\"\n    xmlns:dc=\"http://purl.org/dc/elements/1.1/\"\n    xmlns:upnp=\"urn:schemas-upnp-org:metadata-1-0/upnp/\">\n  <item id=\"0\" parentID=\"0\" restricted=\"1\">\n    <dc:title>").toList

/-- `DIDL_TEMPLATE` between the `{title}` and `{url}` placeholders. -/
def didlMid : List Char :=
  ("</dc:title>\n    <upnp:class>object.item.audioItem.audioBroadcast</upnp:class>\n    <res protocolInfo=\"http-get:*:audio/mpeg:*\">").toList

/-- `DIDL_TEMPLATE` after the `{url}` placeholder. -/
def didlPost : List Char :=
  ("</res>\n  </item>\n</DIDL-Lite>").toList

/-- `DIDL_TEMPLATE.format(title=safe_title, url=safe_url)`: the metadata
payload `play` passes to the `SetAVTransportURI` action. -/
def didlMetadata (title url : List Char) : List Char :=
  didlPre ++ safe_title title ++ didlMid ++ safe_url url ++ didlPost

/-- A renderer device as `play` observes it: whether `device.service(...)`
finds the AVTransport and RenderingControl services. -/
structure Device where
  friendlyName : String
  hasAVTransport : Bool
  hasRenderingControl : Bool
deriving Repr, DecidableEq

/-- The UPnP actions `play` can issue, in the order they are attempted. -/
inductive TransportAction where
  | stopAction
  | setVolumeAction (v : Int)
  | setURIAction (uri : String) (meta : List Char)
  | playAction
deriving Repr, DecidableEq

/-- `UpnpStreamer.play`. `device` is `self._device` on entry; `discovered`
is the device `discover()` selects when invoked (`none` when discovery finds
no suitable renderer and returns `None`). `setUriOk` / `playOk` say whether
the respective `async_call` raises; the `Stop` and `SetVolume` calls are
best-effort so their failures do not change control flow. Returns the
boolean result together with the list of transport actions issued. -/
def upnpPlay (device : Option Device) (discovered : Option Device)
    (default_volume : Option Int) (setUriOk playOk : Bool)
    (stream_url : String) (title : String) :
    Bool × List TransportAction :=
  let dev? := match device with
    | some d => some d
    | none => discovered
  match dev? with
  | none => (false, [])
  | some dev =>
    if dev.hasAVTransport = false then (false, [])
    else
      let log1 := [TransportAction.stopAction]
      let log2 := log1 ++
        (match default_volume with
          | some v =>
            if dev.hasRenderingControl then [TransportAction.setVolumeAction v]
            else []
          | none => [])
      let meta := didlMetadata title.toList stream_url.toList
      let log3 := log2 ++ [TransportAction.setURIAction stream_url meta]
      if setUriOk then (playOk, log3 ++ [TransportAction.playAction])
      else (false, log3)

/-- A concrete place used in witnesses and counterexamples. -/
def placeParis : Place :=
  ⟨"paris-id", some "Paris", some "France", some 5⟩

/-- A concrete place of declared size 10. -/
def placeLyon : Place :=
  ⟨"lyon-id", some "Lyon", some "France", some 10⟩

/-- A concrete place of declared size 8. -/
def placeNice : Place :=
  ⟨"nice-id", some "Nice", some "France", some 8⟩

/-- A concrete channel used in witnesses and counterexamples. -/
def chanA : Channel :=
  ⟨⟨"/listen/alpha-fm/a1", "Alpha FM"⟩⟩

/-- A second concrete channel. -/
def chanB : Channel :=
  ⟨⟨"/listen/beta-fm/b2", "Beta FM"⟩⟩

/-- A third concrete channel. -/
def chanC : Channel :=
  ⟨⟨"/listen/gamma-fm/c3", "Gamma FM"⟩⟩

/-- A fourth concrete channel. -/
def chanD : Channel :=
  ⟨⟨"/listen/delta-fm/d4", "Delta FM"⟩⟩

/-- Claim C1 counterexample: with a prior non-empty snapshot (one place,
fetched at time 0) that has gone stale by time 4000 under a ttl of 3600, a
failing remote fetch raises out of `_refresh_places_if_needed` — the error
does propagate to the caller even though a usable snapshot exists. -/
theorem C1_refresh_counterexample :
    (refresh_places_if_needed 3600 4000 ⟨[placeParis], 0⟩ none).raised = true ∧
    ([placeParis] : List Place) ≠ [] := by
  norm_num [refresh_places_if_needed]

/-- Claim C1, amended: on a refresh where the fetch is attempted (the
snapshot is empty or stale) and the fetch fails, the stored places and
fetch timestamp are unchanged but the error always propagates to the
caller, even when a prior non-empty snapshot exists; when the snapshot is
non-empty and fresh, no fetch occurs, so no error can arise. -/
theorem C1_refresh_failure_state_and_propagation (ttl now : ℚ)
    (st : CacheState) :
    ((st.places = [] ∨ ttl ≤ now - st.fetchedAt) →
      refresh_places_if_needed ttl now st none = ⟨st, 1, true⟩) ∧
    (st.places ≠ [] → now - st.fetchedAt < ttl →
      refresh_places_if_needed ttl now st none = ⟨st, 0, false⟩) := by
  constructor
  · intro h
    have hguard : ¬(st.places ≠ [] ∧ now - st.fetchedAt < ttl) := by
      rcases h with h | h
      · simp [h]
      · rintro ⟨-, hlt⟩
        linarith
    simp [refresh_places_if_needed, hguard]
  · intro h1 h2
    simp [refresh_places_if_needed, h1, h2]

/-- Claim C1 witness: the amended theorem evaluated at a stale one-place
snapshot (fetch attempted, error raised, state kept) and at a fresh
one-place snapshot (no fetch at all). -/
theorem C1_refresh_failure_state_and_propagation_witness :
    refresh_places_if_needed 3600 4000 ⟨[placeParis], 0⟩ none =
      ⟨⟨[placeParis], 0⟩, 1, true⟩ ∧
    refresh_places_if_needed 3600 100 ⟨[placeParis], 0⟩ none =
      ⟨⟨[placeParis], 0⟩, 0, false⟩ :=
  ⟨(C1_refresh_failure_state_and_propagation 3600 4000 ⟨[placeParis], 0⟩).1
      (Or.inr (by norm_num)),
   (C1_refresh_failure_state_and_propagation 3600 100 ⟨[placeParis], 0⟩).2
      (List.cons_ne_nil _ _) (by norm_num)⟩

/-- Claim C4 counterexample: a successful fetch may legitimately store an
empty place list (first conjunct: the fetch at time 100 succeeds). A refresh
at the very same time — well within the 3600-second ttl of that successful
fetch — still performs a network call, because the freshness guard also
requires a non-empty snapshot. -/
theorem C4_cache_freshness_counterexample :
    (refresh_places_if_needed 3600 100 ⟨[], 0⟩ (some [])).raised = false ∧
    ¬((refresh_places_if_needed 3600 100
        (refresh_places_if_needed 3600 100 ⟨[], 0⟩ (some [])).state
        (some [])).networkCalls = 0) := by
  norm_num [refresh_places_if_needed]

/-- Claim C4, amended: a refresh within `ttl` of the last successful fetch
performs no network call and leaves the cache unchanged provided the stored
snapshot is non-empty; when the snapshot is empty or `ttl` has elapsed, the
refresh call makes exactly one network call. -/
theorem C4_cache_freshness (ttl now : ℚ) (st : CacheState)
    (fetch : Option (List Place)) :
    (st.places ≠ [] → now - st.fetchedAt < ttl →
      refresh_places_if_needed ttl now st fetch = ⟨st, 0, false⟩) ∧
    ((st.places = [] ∨ ttl ≤ now - st.fetchedAt) →
      (refresh_places_if_needed ttl now st fetch).networkCalls = 1) := by
  constructor
  · intro h1 h2
    simp [refresh_places_if_needed, h1, h2]
  · intro h
    have hguard : ¬(st.places ≠ [] ∧ now - st.fetchedAt < ttl) := by
      rcases h with h | h
      · simp [h]
      · rintro ⟨-, hlt⟩
        linarith
    cases fetch <;> simp [refresh_places_if_needed, hguard]

/-- Claim C4 witness: the amended theorem evaluated at a fresh non-empty
snapshot (no network call, cache untouched) and at a stale snapshot
(exactly one network call). -/
theorem C4_cache_freshness_witness :
    refresh_places_if_needed 3600 100 ⟨[placeParis], 0⟩ (some [placeLyon]) =
      ⟨⟨[placeParis], 0⟩, 0, false⟩ ∧
    (refresh_places_if_needed 3600 9999 ⟨[placeParis], 0⟩
        (some [placeLyon])).networkCalls = 1 :=
  ⟨(C4_cache_freshness 3600 100 ⟨[placeParis], 0⟩ (some [placeLyon])).1
      (List.cons_ne_nil _ _) (by norm_num),
   (C4_cache_freshness 3600 9999 ⟨[placeParis], 0⟩ (some [placeLyon])).2
      (Or.inr (by norm_num))⟩

/-- `sumSizes` distributes over cons. -/
lemma sumSizes_cons (p : Place) (ps : List Place) :
    sumSizes (p :: ps) = placeSize p + sumSizes ps := by
  simp [sumSizes]

/-- The selection loop returns a prefix of its input list. -/
lemma selectGo_eq_take (b : Int) :
    ∀ (ps : List Place) (total : Int),
      selectGo b total ps = ps.take (selectGo b total ps).length := by
  intro ps
  induction ps with
  | nil => intro total; rfl
  | cons p rest ih =>
    intro total
    by_cases h : b ≤ total
    · simp [selectGo, h]
    · simp only [selectGo, if_neg h, List.length_cons, List.take_succ_cons]
      exact congrArg (List.cons p) (ih (total + placeSize p))

/-- If the selection loop stopped before exhausting the list, the running
total over the selected places reached the budget. -/
lemma selectGo_stop (b : Int) :
    ∀ (ps : List Place) (total : Int),
      selectGo b total ps ≠ ps →
      b ≤ total + sumSizes (selectGo b total ps) := by
  intro ps
  induction ps with
  | nil => intro total h; exact absurd rfl h
  | cons p rest ih =>
    intro total h
    by_cases hb : b ≤ total
    · simp only [selectGo, if_pos hb]
      simpa [sumSizes] using hb
    · have h' : selectGo b (total + placeSize p) rest ≠ rest := by
        intro he
        exact h (by simp [selectGo, if_neg hb, he])
      have hrec := ih (total + placeSize p) h'
      simp only [selectGo, if_neg hb, sumSizes_cons]
      linarith

/-- Before every selected place, the running total was still short of the
budget: the loop never keeps going once the budget is reached. -/
lemma selectGo_prefix_lt (b : Int) :
    ∀ (ps : List Place) (total : Int) (k : Nat),
      k < (selectGo b total ps).length →
      total + sumSizes ((selectGo b total ps).take k) < b := by
  intro ps
  induction ps with
  | nil => intro total k hk; simp [selectGo] at hk
  | cons p rest ih =>
    intro total k hk
    by_cases hb : b ≤ total
    · simp [selectGo, if_pos hb] at hk
    · simp only [selectGo, if_neg hb] at hk ⊢
      cases k with
      | zero =>
        have htb : total < b := not_le.mp hb
        simpa [sumSizes] using htb
      | succ k =>
        simp only [List.length_cons, Nat.succ_lt_succ_iff] at hk
        simp only [List.take_succ_cons, sumSizes_cons]
        have hrec := ih (total + placeSize p) k hk
        linarith

/-- A non-positive station budget selects nothing: the guard
`total_size >= n_stations` already holds at `total_size = 0`. -/
lemma selectPlaces_of_nonpos (budget : Int) (hb : budget ≤ 0)
    (ps : List Place) : selectPlaces budget ps = [] := by
  cases ps with
  | nil => rfl
  | cons p rest => simp [selectPlaces, selectGo, hb]

/-- Claim C7: for a positive budget the selection walk always selects the
nearest place first (even when its size alone exceeds the budget), the
selected set is a prefix of the distance-sorted list, the walk stops exactly
when the accumulated `size` weights reach the budget or the list runs out
(every proper prefix of the selection is still below budget, and a stop
before exhaustion means the budget was reached), and the concrete scenario
with sizes [5, 10, 8] and budget 12 selects exactly the first two places. -/
theorem C7_selection_walk (budget : Int) (hb : 1 ≤ budget) (p : Place)
    (rest : List Place) :
    (selectPlaces budget (p :: rest)).head? = some p ∧
    (∀ ps : List Place,
      selectPlaces budget ps = ps.take (selectPlaces budget ps).length) ∧
    (∀ ps : List Place, selectPlaces budget ps ≠ ps →
      budget ≤ sumSizes (selectPlaces budget ps)) ∧
    (∀ ps : List Place, ∀ k < (selectPlaces budget ps).length,
      sumSizes ((selectPlaces budget ps).take k) < budget) ∧
    selectPlaces 12 [placeParis, placeLyon, placeNice] =
      [placeParis, placeLyon] := by
  refine ⟨?_, ?_, ?_, ?_, by decide⟩
  · have hnb : ¬ budget ≤ (0 : Int) := by linarith
    simp [selectPlaces, selectGo, hnb]
  · intro ps
    exact selectGo_eq_take budget ps 0
  · intro ps h
    simpa using selectGo_stop budget ps 0 h
  · intro ps k hk
    simpa using selectGo_prefix_lt budget ps 0 k hk

/-- Claim C7 witness: the walk at budget 12 over sizes [5, 10, 8] keeps
Paris first, and even a budget of 3 — smaller than the nearest place's
size 5 — still selects the nearest place. -/
theorem C7_selection_walk_witness :
    (selectPlaces 12 (placeParis :: [placeLyon, placeNice])).head? =
      some placeParis ∧
    (selectPlaces 3 (placeParis :: [])).head? = some placeParis :=
  ⟨(C7_selection_walk 12 (by norm_num) placeParis [placeLyon, placeNice]).1,
   (C7_selection_walk 3 (by norm_num) placeParis []).1⟩

/-- Claim C10: with a non-positive station budget `find_nearest_stations`
raises the no-places error no matter what the cached (sorted) place list
holds; with a budget of at least 1, the no-places error occurs exactly when
the place list is empty. -/
theorem C10_no_places_error (budget : Int) (sortedPlaces : List Place)
    (fetch : Place → Option (List Channel))
    (sample : List Channel → Nat → List Channel)
    (choose : List Channel → Channel) (base : String)
    (probe : String → Option ProbeResp) :
    (budget ≤ 0 →
      find_nearest_stations budget sortedPlaces fetch sample choose base
          probe = Except.error RGError.noPlaces) ∧
    (1 ≤ budget →
      (find_nearest_stations budget sortedPlaces fetch sample choose base
          probe = Except.error RGError.noPlaces ↔ sortedPlaces = [])) := by
  constructor
  · intro hb
    have h := selectPlaces_of_nonpos budget hb sortedPlaces
    simp [find_nearest_stations, h]
  · intro hb
    cases sortedPlaces with
    | nil => simp [find_nearest_stations, selectPlaces, selectGo]
    | cons p rest =>
      have hnb : ¬ budget ≤ (0 : Int) := by linarith
      have hsel : selectPlaces budget (p :: rest) =
          p :: selectGo budget (0 + placeSize p) rest := by
        simp [selectPlaces, selectGo, hnb]
      constructor
      · intro herr
        exfalso
        simp only [find_nearest_stations, hsel] at herr
        split at herr <;> simp at herr
      · intro hps
        exact absurd hps (List.cons_ne_nil p rest)

/-- Claim C10 witness: budget 0 over a non-empty cache still raises the
no-places error, and budget 20 raises it exactly on the empty cache. -/
theorem C10_no_places_error_witness :
    find_nearest_stations 0 [placeParis] (fun _ => some [chanA])
        (fun l k => l.take k) (fun l => l.headD chanA) "http://rg"
        (fun _ => none) = Except.error RGError.noPlaces ∧
    (find_nearest_stations 20 [] (fun _ => some [chanA])
        (fun l k => l.take k) (fun l => l.headD chanA) "http://rg"
        (fun _ => none) = Except.error RGError.noPlaces ↔
      ([] : List Place) = []) :=
  ⟨(C10_no_places_error 0 [placeParis] (fun _ => some [chanA])
      (fun l k => l.take k) (fun l => l.headD chanA) "http://rg"
      (fun _ => none)).1 (by norm_num),
   (C10_no_places_error 20 [] (fun _ => some [chanA])
      (fun l k => l.take k) (fun l => l.headD chanA) "http://rg"
      (fun _ => none)).2 (by norm_num)⟩

/-- Claim C8: whenever `find_nearest_stations` succeeds, the selected set is
non-empty and the result's `location` and `country` fields come from the
nearest selected place — the head of the distance-sorted selection — via
`selected_places[0].get("title"/"country", "Unknown")`, regardless of which
place the chosen channel belongs to. -/
theorem C8_location_from_nearest (budget : Int) (ps : List Place)
    (fetch : Place → Option (List Channel))
    (sample : List Channel → Nat → List Channel)
    (choose : List Channel → Channel) (base : String)
    (probe : String → Option ProbeResp) (r : RGResult)
    (hok : find_nearest_stations budget ps fetch sample choose base probe =
      Except.ok r) :
    selectPlaces budget ps ≠ [] ∧
    ∀ p rest, selectPlaces budget ps = p :: rest →
      r.location = p.title.getD "Unknown" ∧
      r.country = p.country.getD "Unknown" := by
  cases hsel : selectPlaces budget ps with
  | nil =>
    exfalso
    simp [find_nearest_stations, hsel] at hok
  | cons p rest =>
    refine ⟨by simp, ?_⟩
    intro p' rest' hsel'
    injection hsel' with hp hrest
    subst hp
    simp only [find_nearest_stations, hsel] at hok
    split at hok
    · exact absurd hok (by simp)
    · injection hok with h
      subst h
      simp

/-- Claim C8 witness: a one-place run that succeeds and reports Paris as
location and France as country. -/
theorem C8_location_from_nearest_witness :
    selectPlaces 1 [placeParis] ≠ [] ∧
    ∀ p rest, selectPlaces 1 [placeParis] = p :: rest →
      (RGResult.mk "Alpha FM" "a1" "Paris" "France"
          "http://rg/listen/a1/channel.mp3").location =
        p.title.getD "Unknown" ∧
      (RGResult.mk "Alpha FM" "a1" "Paris" "France"
          "http://rg/listen/a1/channel.mp3").country =
        p.country.getD "Unknown" :=
  C8_location_from_nearest 1 [placeParis] (fun _ => some [chanA])
    (fun l k => l.take k) (fun l => l.headD chanA) "http://rg"
    (fun _ => none) _ rfl

/-- Peeling one non-last fetch outcome: its successful items are appended to
the accumulator unconditionally. -/
lemma aggregateChannels_cons_of_ne_nil (b : Int)
    (sample : List Channel → Nat → List Channel)
    (o : Option (List Channel)) (tail : List (Option (List Channel)))
    (h : tail ≠ []) (acc : List Channel) :
    aggregateChannels b sample (o :: tail) acc =
      aggregateChannels b sample tail (acc ++ o.getD []) := by
  cases tail with
  | nil => exact absurd rfl h
  | cons o2 rest => cases o <;> simp [aggregateChannels]

/-- The aggregation loop over a run ending in a last outcome equals the
last-place step applied to the concatenation of the prior successful
fetches. -/
lemma aggregateChannels_append_last (b : Int)
    (sample : List Channel → Nat → List Channel) :
    ∀ (os : List (Option (List Channel))) (o : Option (List Channel))
      (acc : List Channel),
      aggregateChannels b sample (os ++ [o]) acc =
        aggregateChannels b sample [o] (acc ++ fetchedConcat os) := by
  intro os
  induction os with
  | nil => intro o acc; simp [fetchedConcat]
  | cons o1 os' ih =>
    intro o acc
    rw [List.cons_append,
      aggregateChannels_cons_of_ne_nil b sample o1 (os' ++ [o])
        (by simp) acc,
      ih o (acc ++ o1.getD [])]
    simp [fetchedConcat, List.append_assoc]

/-- The last-place step keeps the aggregate within budget whenever the
prior channels were within budget. -/
lemma aggregateChannels_last_le (b : Int)
    (sample : List Channel → Nat → List Channel)
    (hS : ∀ (its : List Channel) (k : Nat), k ≤ its.length →
      (sample its k).length = k)
    (o : Option (List Channel)) (acc : List Channel)
    (hacc : (acc.length : Int) ≤ b) :
    ((aggregateChannels b sample [o] acc).length : Int) ≤ b := by
  cases o with
  | none => simpa [aggregateChannels] using hacc
  | some items =>
    simp only [aggregateChannels]
    by_cases h1 : (items.length : Int) > b - acc.length
    · rw [if_pos h1, if_neg (by omega)]
      have hk : (b - (acc.length : Int)).toNat ≤ items.length := by omega
      have hlen := hS items _ hk
      simp only [List.length_append, hlen]
      omega
    · rw [if_neg h1]
      simp only [List.length_append]
      omega

/-- In the overshoot case with a non-negative remaining budget, the
last-place step appends exactly a sample of the remaining budget. -/
lemma aggregateChannels_last_sample (b : Int)
    (sample : List Channel → Nat → List Channel) (items acc : List Channel)
    (h0 : (0 : Int) ≤ b - acc.length)
    (h1 : (items.length : Int) > b - acc.length) :
    aggregateChannels b sample [some items] acc =
      acc ++ sample items (b - (acc.length : Int)).toNat := by
  simp only [aggregateChannels]
  rw [if_pos h1, if_neg (by omega)]

/-- Claim C2 counterexample: with `stationBudget = 2` and two selected
places whose fetches return 3 and 1 items, the aggregate holds 3 channels —
over budget. The first (non-last) place's items are appended without any
cap, and the last place cannot repair the overshoot (here `random.sample`
is asked for a negative count, raises, and is skipped). -/
theorem C2_budget_overflow_counterexample :
    (1 : Int) ≤ 2 ∧
    ¬(((aggregateChannels 2 (fun l k => l.take k)
        [some [chanA, chanB, chanC], some [chanD]] []).length : Int) ≤ 2) := by
  decide

/-- Claim C2, amended: provided the channels accumulated from the places
before the last one do not already exceed `stationBudget` (which the code
does not enforce when a non-last fetch returns more items than expected),
the aggregate never exceeds the budget, and when the last place's item
count would push the aggregate over, exactly the remaining budget is taken
as a sample, making the total exactly the budget. -/
theorem C2_last_place_budget (budget : Int)
    (sample : List Channel → Nat → List Channel)
    (hS : ∀ (its : List Channel) (k : Nat), k ≤ its.length →
      (sample its k).length = k)
    (os : List (Option (List Channel))) (o : Option (List Channel))
    (hprior : ((fetchedConcat os).length : Int) ≤ budget) :
    ((aggregateChannels budget sample (os ++ [o]) []).length : Int) ≤
      budget ∧
    ∀ items, o = some items →
      (items.length : Int) > budget - (fetchedConcat os).length →
      aggregateChannels budget sample (os ++ [o]) [] =
        fetchedConcat os ++
          sample items (budget - ((fetchedConcat os).length : Int)).toNat ∧
      ((aggregateChannels budget sample (os ++ [o]) []).length : Int) =
        budget := by
  have hsplit := aggregateChannels_append_last budget sample os o []
  simp only [List.nil_append] at hsplit
  constructor
  · rw [hsplit]
    exact aggregateChannels_last_le budget sample hS o _ hprior
  · intro items ho hover
    subst ho
    have hs := aggregateChannels_last_sample budget sample items
      (fetchedConcat os) (by omega) hover
    rw [hsplit, hs]
    refine ⟨rfl, ?_⟩
    have hk : (budget - ((fetchedConcat os).length : Int)).toNat ≤
        items.length := by omega
    have hlen := hS items _ hk
    simp only [List.length_append, hlen]
    omega

/-- Claim C2 witness: one prior place contributing a single channel under a
budget of 2, and a last place whose 3 items overshoot: the aggregate stays
within budget (and here hits it exactly). -/
theorem C2_last_place_budget_witness :
    ((aggregateChannels 2 (fun l k => l.take k)
        ([some [chanA]] ++ [some [chanB, chanC, chanD]]) []).length :
      Int) ≤ 2 :=
  (C2_last_place_budget 2 (fun l k => l.take k)
    (fun its k hk => by simp only [List.length_take]; omega)
    [some [chanA]] (some [chanB, chanC, chanD]) (by decide)).1

/-- The replaced character never survives its own replacement, as long as
the replacement text does not contain it. -/
lemma not_mem_replaceChar (c : Char) (rep : List Char) (hc : c ∉ rep) :
    ∀ l, c ∉ replaceChar c rep l := by
  intro l
  induction l with
  | nil => simp [replaceChar]
  | cons d ds ih =>
    simp only [replaceChar]
    by_cases hd : d = c
    · rw [if_pos hd]
      intro hmem
      rcases List.mem_append.mp hmem with h | h
      · exact hc h
      · exact ih h
    · rw [if_neg hd]
      intro hmem
      rcases List.mem_append.mp hmem with h | h
      · exact hd (List.mem_singleton.mp h).symm
      · exact ih h

/-- A character absent from both the input and the replacement text stays
absent. -/
lemma not_mem_replaceChar_of_not_mem (c x : Char) (rep : List Char)
    (hrep : x ∉ rep) :
    ∀ l, x ∉ l → x ∉ replaceChar c rep l := by
  intro l
  induction l with
  | nil => intro _; simp [replaceChar]
  | cons d ds ih =>
    intro hl
    simp only [List.mem_cons, not_or] at hl
    simp only [replaceChar]
    by_cases hd : d = c
    · rw [if_pos hd]
      intro hmem
      rcases List.mem_append.mp hmem with h | h
      · exact hrep h
      · exact ih hl.2 h
    · rw [if_neg hd]
      intro hmem
      rcases List.mem_append.mp hmem with h | h
      · exact hl.1 (List.mem_singleton.mp h)
      · exact ih hl.2 h

/-- Replacement is the identity on lists that do not contain the replaced
character. -/
lemma replaceChar_of_not_mem (c : Char) (rep : List Char) :
    ∀ l, c ∉ l → replaceChar c rep l = l := by
  intro l
  induction l with
  | nil => intro _; rfl
  | cons d ds ih =>
    intro hl
    simp only [List.mem_cons, not_or] at hl
    have hdc : ¬d = c := fun h => hl.1 h.symm
    simp only [replaceChar, if_neg hdc, List.singleton_append, ih hl.2]

/-- Occurrence count of a character other than the replaced one: the
original occurrences survive, plus what each inserted replacement brings. -/
lemma count_replaceChar (c x : Char) (rep : List Char) (hx : x ≠ c) :
    ∀ l, (replaceChar c rep l).count x = l.count x + l.count c * rep.count x := by
  intro l
  induction l with
  | nil => simp [replaceChar]
  | cons d ds ih =>
    by_cases hd : d = c
    · subst hd
      simp [replaceChar, List.count_append, List.count_cons, ih, hx,
        Ne.symm hx]
      try ring
    · have hcd : ¬c = d := fun h => hd h.symm
      by_cases hxd : x = d
      · subst hxd
        simp [replaceChar, List.count_append, List.count_cons, ih, hd, hcd]
        try ring
      · have hdx : ¬d = x := fun h => hxd h.symm
        simp [replaceChar, List.count_append, List.count_cons, ih, hd, hcd,
          hxd, hdx]
        try ring

/-- Occurrence count of the replaced character itself: each occurrence
becomes whatever the replacement text contains. -/
lemma count_replaceChar_self (c : Char) (rep : List Char) :
    ∀ l, (replaceChar c rep l).count c = l.count c * rep.count c := by
  intro l
  induction l with
  | nil => simp [replaceChar]
  | cons d ds ih =>
    by_cases hd : d = c
    · subst hd
      simp [replaceChar, List.count_append, List.count_cons, ih]
      try ring
    · have hcd : ¬c = d := fun h => hd h.symm
      simp [replaceChar, List.count_append, List.count_cons, ih, hd, hcd]
      try ring

/-- Claim C3 counterexample: for the stream URL `"a<b"` the value embedded
into the DIDL metadata is `"a<b"` itself — the `<` is not escaped, unlike
what the spec-mandated escaping of both values would produce. -/
theorem C3_url_lt_unescaped_counterexample :
    safe_url ("a<b".toList) = "a<b".toList ∧
    specEscapedValue ("a<b".toList) = "a&lt;b".toList ∧
    safe_url ("a<b".toList) ≠ specEscapedValue ("a<b".toList) ∧
    didlMetadata "T".toList ("a<b".toList) =
      didlPre ++ "T".toList ++ didlMid ++ "a<b".toList ++ didlPost :=
  ⟨by decide, by decide, by decide, rfl⟩

/-- Claim C3, amended: in the metadata payload `play` builds, the embedded
title has every `&` and `<` escaped (no `<` survives, and each original `&`
or `<` contributes exactly one escape-sequence ampersand), while the
embedded stream URL only has `&` escaped: its `<` occurrences survive
verbatim, and the URL value agrees with the spec's both-characters escaping
exactly when the URL contains no `<`. -/
theorem C3_metadata_escaping (t u : List Char) :
    '<' ∉ safe_title t ∧
    (safe_title t).count '&' = t.count '&' + t.count '<' ∧
    (safe_url u).count '<' = u.count '<' ∧
    ('<' ∉ u → safe_url u = specEscapedValue u) ∧
    didlMetadata t u =
      didlPre ++ safe_title t ++ didlMid ++ safe_url u ++ didlPost := by
  refine ⟨?_, ?_, ?_, ?_, rfl⟩
  · exact not_mem_replaceChar '<' ("&lt;".toList) (by decide) _
  · have hA : List.count '&' ("&amp;".toList) = 1 := by decide
    have hB : List.count '<' ("&amp;".toList) = 0 := by decide
    have hL : List.count '&' ("&lt;".toList) = 1 := by decide
    rw [safe_title, count_replaceChar '<' '&' ("&lt;".toList) (by decide),
      count_replaceChar_self '&' ("&amp;".toList),
      count_replaceChar '&' '<' ("&amp;".toList) (by decide), hA, hB, hL]
    ring
  · have hB : List.count '<' ("&amp;".toList) = 0 := by decide
    rw [safe_url, count_replaceChar '&' '<' ("&amp;".toList) (by decide), hB]
    ring
  · intro hu
    rw [safe_url, specEscapedValue,
      replaceChar_of_not_mem '<' ("&lt;".toList) _
        (not_mem_replaceChar_of_not_mem '&' '<' ("&amp;".toList)
          (by decide) u hu)]

/-- Claim C3 witness: a title with markup and an ampersand-bearing URL free
of `<`, where the URL escaping agrees with the spec's escaping. -/
theorem C3_metadata_escaping_witness :
    '<' ∉ safe_title ("A <Live> & Loud".toList) ∧
    safe_url ("http://s/x?a=1&b=2".toList) =
      specEscapedValue ("http://s/x?a=1&b=2".toList) :=
  ⟨(C3_metadata_escaping ("A <Live> & Loud".toList)
      ("http://s/x?a=1&b=2".toList)).1,
   (C3_metadata_escaping ("A <Live> & Loud".toList)
      ("http://s/x?a=1&b=2".toList)).2.2.2.1 (by decide)⟩

/-- Claim C5: `get_stream_url` is total (the model is a function — every
exception path is the `except` branch returning the canonical URL) and
resolves as specified: a raised transport/TLS error yields the canonical
endpoint URL, a 301/302/307/308 response yields its `Location` header
value, and any other response yields the final probed URL. -/
theorem C5_stream_resolver (base station_id : String)
    (probe : String → Option ProbeResp) :
    (probe (canonical_listen_url base station_id) = none →
      get_stream_url base station_id probe =
        canonical_listen_url base station_id) ∧
    (∀ resp loc,
      probe (canonical_listen_url base station_id) = some resp →
      (resp.status = 301 ∨ resp.status = 302 ∨ resp.status = 307 ∨
        resp.status = 308) →
      resp.location = some loc →
      get_stream_url base station_id probe = loc) ∧
    (∀ resp,
      probe (canonical_listen_url base station_id) = some resp →
      ¬(resp.status = 301 ∨ resp.status = 302 ∨ resp.status = 307 ∨
        resp.status = 308) →
      get_stream_url base station_id probe = resp.finalUrl) := by
  refine ⟨?_, ?_, ?_⟩
  · intro h
    simp [get_stream_url, h]
  · intro resp loc h hst hloc
    simp [get_stream_url, h, hst, hloc]
  · intro resp h hst
    simp [get_stream_url, h, hst]

/-- Claim C5 witness: a mocked 302 redirect with a `Location` header
resolves to exactly that header value, and a transport error falls back to
the canonical unprobed URL. -/
theorem C5_stream_resolver_witness :
    get_stream_url "http://rg" "a1"
        (fun _ => some ⟨302, some "http://real/stream.mp3",
          "http://probe-final"⟩) = "http://real/stream.mp3" ∧
    get_stream_url "http://rg" "a1" (fun _ => none) =
      canonical_listen_url "http://rg" "a1" :=
  ⟨(C5_stream_resolver "http://rg" "a1"
      (fun _ => some ⟨302, some "http://real/stream.mp3",
        "http://probe-final"⟩)).2.1
      ⟨302, some "http://real/stream.mp3", "http://probe-final"⟩
      "http://real/stream.mp3" rfl (Or.inr (Or.inl rfl)) rfl,
   (C5_stream_resolver "http://rg" "a1" (fun _ => none)).1 rfl⟩

/-- Claim C6: for arbitrary integer touch coordinates, with a
non-degenerate touch rectangle and geographic bounds inside the world
rectangle, the projected latitude lies between the configured south and
north bounds (hence within [-90, 90]) and the projected longitude between
the configured west and east bounds (hence within [-180, 180]). -/
theorem C6_projection_clamped (cfg : CoordinateConverter) (x y : Int)
    (htx : cfg.touch_min_x < cfg.touch_max_x)
    (hty : cfg.touch_min_y < cfg.touch_max_y)
    (hs : -90 ≤ cfg.map_south) (hsn : cfg.map_south ≤ cfg.map_north)
    (hn : cfg.map_north ≤ 90) (hw : -180 ≤ cfg.map_west)
    (hwe : cfg.map_west ≤ cfg.map_east) (he : cfg.map_east ≤ 180) :
    (cfg.map_south ≤ (pixel_to_latlon cfg x y).1 ∧
      (pixel_to_latlon cfg x y).1 ≤ cfg.map_north ∧
      -90 ≤ (pixel_to_latlon cfg x y).1 ∧
      (pixel_to_latlon cfg x y).1 ≤ 90) ∧
    (cfg.map_west ≤ (pixel_to_latlon cfg x y).2 ∧
      (pixel_to_latlon cfg x y).2 ≤ cfg.map_east ∧
      -180 ≤ (pixel_to_latlon cfg x y).2 ∧
      (pixel_to_latlon cfg x y).2 ≤ 180) := by
  have hfst : (pixel_to_latlon cfg x y).1 =
      cfg.map_north -
        max 0 (min 1 (((y : ℚ) - cfg.touch_min_y) /
            (cfg.touch_max_y - cfg.touch_min_y))) *
          (cfg.map_north - cfg.map_south) := rfl
  have hsnd : (pixel_to_latlon cfg x y).2 =
      cfg.map_west +
        max 0 (min 1 (((x : ℚ) - cfg.touch_min_x) /
            (cfg.touch_max_x - cfg.touch_min_x))) *
          (cfg.map_east - cfg.map_west) := rfl
  rw [hfst, hsnd]
  set ty := max 0 (min 1 (((y : ℚ) - cfg.touch_min_y) /
    (cfg.touch_max_y - cfg.touch_min_y))) with hty'
  set tx := max 0 (min 1 (((x : ℚ) - cfg.touch_min_x) /
    (cfg.touch_max_x - cfg.touch_min_x))) with htx'
  have hty0 : (0 : ℚ) ≤ ty := le_max_left 0 _
  have hty1 : ty ≤ 1 := max_le (by norm_num) (min_le_left 1 _)
  have htx0 : (0 : ℚ) ≤ tx := le_max_left 0 _
  have htx1 : tx ≤ 1 := max_le (by norm_num) (min_le_left 1 _)
  have h1 : ty * (cfg.map_north - cfg.map_south) ≤
      cfg.map_north - cfg.map_south :=
    mul_le_of_le_one_left (sub_nonneg.mpr hsn) hty1
  have h2 : (0 : ℚ) ≤ ty * (cfg.map_north - cfg.map_south) :=
    mul_nonneg hty0 (sub_nonneg.mpr hsn)
  have h3 : tx * (cfg.map_east - cfg.map_west) ≤
      cfg.map_east - cfg.map_west :=
    mul_le_of_le_one_left (sub_nonneg.mpr hwe) htx1
  have h4 : (0 : ℚ) ≤ tx * (cfg.map_east - cfg.map_west) :=
    mul_nonneg htx0 (sub_nonneg.mpr hwe)
  refine ⟨⟨by linarith, by linarith, by linarith, by linarith⟩,
    ⟨by linarith, by linarith, by linarith, by linarith⟩⟩

/-- Claim C6 witness: the default 1024×600-to-world configuration at the
out-of-range touch point (-50, 100000) still projects inside the
configured bounds. -/
theorem C6_projection_clamped_witness :
    (defaultConverter.map_south ≤
        (pixel_to_latlon defaultConverter (-50) 100000).1 ∧
      (pixel_to_latlon defaultConverter (-50) 100000).1 ≤
        defaultConverter.map_north ∧
      -90 ≤ (pixel_to_latlon defaultConverter (-50) 100000).1 ∧
      (pixel_to_latlon defaultConverter (-50) 100000).1 ≤ 90) ∧
    (defaultConverter.map_west ≤
        (pixel_to_latlon defaultConverter (-50) 100000).2 ∧
      (pixel_to_latlon defaultConverter (-50) 100000).2 ≤
        defaultConverter.map_east ∧
      -180 ≤ (pixel_to_latlon defaultConverter (-50) 100000).2 ∧
      (pixel_to_latlon defaultConverter (-50) 100000).2 ≤ 180) :=
  C6_projection_clamped defaultConverter (-50) 100000
    (by norm_num [defaultConverter]) (by norm_num [defaultConverter])
    (by norm_num [defaultConverter]) (by norm_num [defaultConverter])
    (by norm_num [defaultConverter]) (by norm_num [defaultConverter])
    (by norm_num [defaultConverter]) (by norm_num [defaultConverter])

/-- Claim C9: a `play` call with no selected device whose discovery also
selects no device returns `false` and issues no transport action at all —
no Stop, no SetVolume, no SetAVTransportURI, no Play. -/
theorem C9_play_without_device (default_volume : Option Int)
    (setUriOk playOk : Bool) (stream_url title : String) :
    upnpPlay none none default_volume setUriOk playOk stream_url title =
      (false, []) := rfl

end RadioWall
